import Mathlib

/-!
Shallow embedding of `initial_load.js` from the google-ads-click-parameters
repository: a one-shot export that reads every row of one Snowflake table,
archives the rows as one JSON array in S3, and bulk-loads them into DynamoDB
in batches of at most 25 put requests.
-/

namespace GoogleAdsClickParameters

/-- Scalar value of one warehouse column: string, number (modelled as an
integer), boolean, or null. -/
inductive Scalar where
  | str (s : String)
  | num (n : Int)
  | bool (b : Bool)
  | null
deriving DecidableEq, Repr

/-- One warehouse row, as the Snowflake driver hands it to the `complete`
callback: an ordered mapping from column name to scalar value. -/
abbrev Record := List (String × Scalar)

/-- One element of a DynamoDB batch, built at line 62 of `initial_load.js` as
`PutRequest: (Item: row)`: the whole row becomes the item. -/
structure PutRequest where
  Item : Record
deriving DecidableEq, Repr

/-- The batching loop of `writeToDynamoDB` (initial_load.js lines 59-68):
`current` collects one put request per row and is flushed into `batches`
whenever it reaches 25 entries; after the loop a nonempty leftover is
appended (`if (current.length) batches.push(current)`). -/
def chunkLoop : List Record → List (List PutRequest) → List PutRequest → List (List PutRequest)
  | [], batches, current => if current.length ≠ 0 then batches ++ [current] else batches
  | row :: rest, batches, current =>
      let current' := current ++ [{ Item := row }]
      if current'.length = 25 then chunkLoop rest (batches ++ [current']) []
      else chunkLoop rest batches current'

/-- The batches `writeToDynamoDB` builds before issuing any call. -/
def writeBatches (rows : List Record) : List (List PutRequest) :=
  chunkLoop rows [] []

/-- Reference chunking: split a list into consecutive runs of 25 elements,
the last run possibly shorter. -/
def chunksOf25 : List α → List (List α)
  | [] => []
  | x :: xs => ((x :: xs).take 25) :: chunksOf25 ((x :: xs).drop 25)
termination_by l => l.length
decreasing_by
  simp only [List.length_drop, List.length_cons]
  omega

theorem chunksOf25_nil : chunksOf25 ([] : List α) = [] := by
  simp [chunksOf25]

theorem chunksOf25_ne_nil {l : List α} (h : l ≠ []) :
    chunksOf25 l = l.take 25 :: chunksOf25 (l.drop 25) := by
  cases l with
  | nil => exact absurd rfl h
  | cons x xs => rw [chunksOf25]

/-- Bridge lemma: the accumulating loop of the source equals the already
flushed batches followed by the reference chunking of the pending elements,
as long as the pending chunk is not yet full. -/
theorem chunkLoop_eq (rows : List Record) (batches : List (List PutRequest))
    (current : List PutRequest) (h : current.length < 25) :
    chunkLoop rows batches current
      = batches ++ chunksOf25 (current ++ rows.map fun r => { Item := r }) := by
  induction rows generalizing batches current with
  | nil =>
    by_cases hc : current = []
    · subst hc
      simp [chunkLoop, chunksOf25_nil]
    · have hlen : current.length ≠ 0 := by
        simpa [List.length_eq_zero] using hc
      rw [chunkLoop, if_pos hlen, List.map_nil, List.append_nil,
        chunksOf25_ne_nil hc, List.take_of_length_le (Nat.le_of_lt h),
        List.drop_eq_nil_of_le (Nat.le_of_lt h), chunksOf25_nil]
  | cons row rest ih =>
    simp only [chunkLoop]
    have hmap : current ++ (List.map (fun r => { Item := r }) (row :: rest))
        = (current ++ [{ Item := row }]) ++ List.map (fun r => { Item := r }) rest := by
      simp
    by_cases hfull : (current ++ [({ Item := row } : PutRequest)]).length = 25
    · rw [if_pos hfull, ih _ [] (by norm_num)]
      simp only [List.nil_append]
      rw [hmap,
        chunksOf25_ne_nil
          (l := current ++ [({ Item := row } : PutRequest)]
            ++ List.map (fun r => ({ Item := r } : PutRequest)) rest)
          (by simp),
        List.take_append_of_le_length (le_of_eq hfull.symm),
        List.take_of_length_le (le_of_eq hfull),
        List.drop_append_of_le_length (le_of_eq hfull.symm),
        List.drop_eq_nil_of_le (le_of_eq hfull)]
      simp
    · have h' : (current ++ [({ Item := row } : PutRequest)]).length < 25 := by
        simp only [List.length_append, List.length_cons, List.length_nil] at hfull ⊢
        omega
      rw [if_neg hfull, ih _ _ h', hmap]

/-- The source loop computes exactly the reference chunking of the rows,
wrapped as put requests. -/
theorem writeBatches_eq (rows : List Record) :
    writeBatches rows = chunksOf25 (rows.map fun r => { Item := r }) := by
  rw [writeBatches, chunkLoop_eq rows [] [] (by norm_num)]
  simp

theorem chunksOf25_flatten (l : List α) : (chunksOf25 l).flatten = l := by
  induction l using chunksOf25.induct with
  | case1 => simp [chunksOf25]
  | case2 x xs ih =>
    rw [chunksOf25, List.flatten_cons, ih, List.take_append_drop]

theorem chunksOf25_length (l : List α) :
    (chunksOf25 l).length = (l.length + 24) / 25 := by
  induction l using chunksOf25.induct with
  | case1 => simp [chunksOf25]
  | case2 x xs ih =>
    rw [chunksOf25]
    simp only [List.length_cons, List.length_drop] at ih ⊢
    rw [ih]
    omega

theorem chunksOf25_mem {l b : List α} (hb : b ∈ chunksOf25 l) :
    1 ≤ b.length ∧ b.length ≤ 25 := by
  induction l using chunksOf25.induct with
  | case1 => simp [chunksOf25] at hb
  | case2 x xs ih =>
    rw [chunksOf25] at hb
    rcases List.mem_cons.mp hb with h | h
    · subst h
      simp only [List.length_take, List.length_cons]
      omega
    · exact ih h

theorem chunksOf25_dropLast {l b : List α} (hb : b ∈ (chunksOf25 l).dropLast) :
    b.length = 25 := by
  induction l using chunksOf25.induct with
  | case1 => simp [chunksOf25] at hb
  | case2 x xs ih =>
    rw [chunksOf25] at hb
    by_cases hrest : chunksOf25 ((x :: xs).drop 25) = []
    · rw [hrest] at hb
      simp at hb
    · rw [List.dropLast_cons_of_ne_nil hrest] at hb
      rcases List.mem_cons.mp hb with h | h
      · subst h
        have hd : (x :: xs).drop 25 ≠ [] := by
          intro hh
          exact hrest (by rw [hh, chunksOf25_nil])
        have hlt : 25 < (x :: xs).length := by
          by_contra hle
          exact hd (List.drop_eq_nil_of_le (by omega))
        simp only [List.length_take, List.length_cons] at hlt ⊢
        omega
      · exact ih h

/-- A JSON value, the shape `JSON.stringify` serializes. -/
inductive Json where
  | str (s : String)
  | num (n : Int)
  | bool (b : Bool)
  | null
  | arr (elems : List Json)
  | obj (fields : List (String × Json))

/-- A scalar column value as a JSON value. -/
def scalarToJson : Scalar → Json
  | Scalar.str s => Json.str s
  | Scalar.num n => Json.num n
  | Scalar.bool b => Json.bool b
  | Scalar.null => Json.null

/-- A row as the JSON object `JSON.stringify` produces for it: the same keys
in the same order, each value embedded unchanged. -/
def recordToJson (r : Record) : Json :=
  Json.obj (r.map fun kv => (kv.1, scalarToJson kv.2))

/-- Hexadecimal digit for the low-codepoint escapes of `JSON.stringify`. -/
def hexDigit (n : Nat) : Char :=
  if n < 10 then Char.ofNat (48 + n) else Char.ofNat (87 + n)

/-- The escaping `JSON.stringify` applies inside a string literal. -/
def escapeChar (c : Char) : String :=
  if c = '"' then "\\\""
  else if c = '\\' then "\\\\"
  else if c = '\n' then "\\n"
  else if c = '\r' then "\\r"
  else if c = '\t' then "\\t"
  else if c.toNat = 8 then "\\b"
  else if c.toNat = 12 then "\\f"
  else if c.toNat < 32 then
    "\\u00" ++ String.mk [hexDigit (c.toNat / 16), hexDigit (c.toNat % 16)]
  else String.singleton c

/-- A JSON string literal: quotes around the escaped characters. -/
def renderString (s : String) : String :=
  "\"" ++ String.join (s.toList.map escapeChar) ++ "\""

mutual

/-- Compact JSON text of a value, as `JSON.stringify` emits it (no spacing). -/
def renderJson : Json → String
  | Json.str s => renderString s
  | Json.num n => toString n
  | Json.bool b => if b then "true" else "false"
  | Json.null => "null"
  | Json.arr es => "[" ++ renderJsonElems es ++ "]"
  | Json.obj fs => "\x7b" ++ renderJsonFields fs ++ "\x7d"

/-- Comma-separated rendering of array elements. -/
def renderJsonElems : List Json → String
  | [] => ""
  | [j] => renderJson j
  | j :: j' :: rest => renderJson j ++ "," ++ renderJsonElems (j' :: rest)

/-- Comma-separated rendering of object fields. -/
def renderJsonFields : List (String × Json) → String
  | [] => ""
  | [kv] => renderString kv.1 ++ ":" ++ renderJson kv.2
  | kv :: kv' :: rest =>
      renderString kv.1 ++ ":" ++ renderJson kv.2 ++ "," ++ renderJsonFields (kv' :: rest)

end

/-- Body of the archive object (initial_load.js line 84): the rows serialized
as one JSON array. -/
def jsonStringifyRows (rows : List Record) : String :=
  renderJson (Json.arr (rows.map recordToJson))

/-- Environment configuration read at initial_load.js lines 8-18.
`s3KeyPrefixVar` is the raw value of the S3 key-prefix environment variable,
`none` when the variable is undefined; the destructuring default
`click_performance/` applies only in that case. Connection variables for
Snowflake are omitted: they are consumed opaquely by the driver. -/
structure Config where
  S3_BUCKET : String
  s3KeyPrefixVar : Option String
  DYNAMO_TABLE_NAME : String

/-- Value of the key-prefix binding after the destructuring default of
initial_load.js line 16. -/
def s3KeyPrefixValue (cfg : Config) : String :=
  match cfg.s3KeyPrefixVar with
  | none => "click_performance/"
  | some p => p

/-- The object key computed at initial_load.js line 92 by the template
literal appending the fixed filename to the (defaulted) key-prefix value. -/
def archiveKey (cfg : Config) : String :=
  s3KeyPrefixValue cfg ++ "initial_load.json"

/-- Fixed fully-qualified source table (initial_load.js lines 20-21). -/
def TABLE_NAME : String :=
  "SEGMENT_EVENTS.GOOGLE_ADS_CLICK_PARAMETERS.CLICK_PERFORMANCE_REPORTS"

/-- One observable external effect of a run. -/
inductive Event where
  | connectWarehouse
  | executeQuery (sqlText : String)
  | destroyConnection
  | putObject (bucket key body : String)
  | batchWriteCall (table : String) (batch : List PutRequest)
  | logSuccess (message : String)
  | logError
deriving DecidableEq, Repr

/-- Outcomes the external world supplies to one run: the error the connect
callback receives (if any), the query completion, the S3 put outcome, and
the outcome of each DynamoDB batchWrite call, indexed by call number. -/
structure World where
  connectErr : Option String
  queryResult : Except String (List Record)
  s3Result : Except String Unit
  ddbResult : Nat → Except String Unit

/-- Model of `fetchAllRows` (initial_load.js lines 27-56): connect; if the
connect callback receives an error, reject at once; otherwise execute the
`SELECT *` statement, and in its `complete` callback destroy the connection
and then reject or resolve. The first component lists the effects performed
before the promise settles; the second is the settlement. -/
def fetchAllRows (w : World) : List Event × Except String (List Record) :=
  match w.connectErr with
  | some e => ([Event.connectWarehouse], Except.error e)
  | none =>
    match w.queryResult with
    | Except.error e =>
        ([Event.connectWarehouse,
          Event.executeQuery ("SELECT * FROM " ++ TABLE_NAME),
          Event.destroyConnection],
         Except.error e)
    | Except.ok rows =>
        ([Event.connectWarehouse,
          Event.executeQuery ("SELECT * FROM " ++ TABLE_NAME),
          Event.destroyConnection],
         Except.ok rows)

/-- The call loop of `writeToDynamoDB` (initial_load.js lines 70-77): for
each batch in order, issue one batchWrite and await it; a failed call throws
out of the loop, so no later batch is issued. `k` is the index of the next
call, selecting its outcome in the world. -/
def ddbCallLoop (table : String) (w : Nat → Except String Unit) :
    List (List PutRequest) → Nat → List Event × Except String Unit
  | [], _ => ([], Except.ok ())
  | b :: rest, k =>
    match w k with
    | Except.error e => ([Event.batchWriteCall table b], Except.error e)
    | Except.ok _ =>
      let r := ddbCallLoop table w rest (k + 1)
      (Event.batchWriteCall table b :: r.1, r.2)

/-- Model of `writeToDynamoDB` (initial_load.js lines 58-78): build the
batches, then issue the calls sequentially. -/
def writeToDynamoDB (cfg : Config) (w : Nat → Except String Unit) (rows : List Record) :
    List Event × Except String Unit :=
  ddbCallLoop cfg.DYNAMO_TABLE_NAME w (writeBatches rows) 0

/-- Model of `dumpToS3` (initial_load.js lines 80-87): one putObject whose
body is the JSON serialization of the rows, at the given key. -/
def dumpToS3 (cfg : Config) (w : World) (rows : List Record) (key : String) :
    List Event × Except String Unit :=
  ([Event.putObject cfg.S3_BUCKET key (jsonStringifyRows rows)], w.s3Result)

/-- Model of `main` (initial_load.js lines 89-100): fetch, archive, bulk
load, success log; the catch block logs the error and sets the exit code
to 1. Returns the effect trace and the process exit code. -/
def mainRun (cfg : Config) (w : World) : List Event × Nat :=
  let f := fetchAllRows w
  match f.2 with
  | Except.error _ => (f.1 ++ [Event.logError], 1)
  | Except.ok rows =>
    let d := dumpToS3 cfg w rows (archiveKey cfg)
    match d.2 with
    | Except.error _ => (f.1 ++ d.1 ++ [Event.logError], 1)
    | Except.ok _ =>
      let dd := writeToDynamoDB cfg w.ddbResult rows
      match dd.2 with
      | Except.error _ => (f.1 ++ d.1 ++ dd.1 ++ [Event.logError], 1)
      | Except.ok _ =>
        (f.1 ++ d.1 ++ dd.1
          ++ [Event.logSuccess
                ("Wrote " ++ toString rows.length ++ " records to S3 and DynamoDB")],
         0)

/-- Whether an event is an S3 putObject. -/
def Event.isPutObject : Event → Bool
  | Event.putObject _ _ _ => true
  | _ => false

/-- Whether an event is a DynamoDB batchWrite call. -/
def Event.isBatchWriteCall : Event → Bool
  | Event.batchWriteCall _ _ => true
  | _ => false

/-- Whether an event is the success log line. -/
def Event.isLogSuccess : Event → Bool
  | Event.logSuccess _ => true
  | _ => false

/-- Concatenating the batches returns the rows, each wrapped as its put
request, in the original order. -/
theorem writeBatches_flatten (rows : List Record) :
    (writeBatches rows).flatten = rows.map fun r => { Item := r } := by
  rw [writeBatches_eq, chunksOf25_flatten]

/-- Projecting the items back out of the flattened batches recovers the
input rows exactly. -/
theorem writeBatches_items (rows : List Record) :
    (writeBatches rows).flatten.map PutRequest.Item = rows := by
  rw [writeBatches_flatten, List.map_map]
  exact List.map_id rows

/-- When every call succeeds, the call loop issues exactly one batchWrite
per batch, in order. -/
theorem ddbCallLoop_all_ok (table : String) (w : Nat → Except String Unit)
    (hw : ∀ k, w k = Except.ok ()) (bs : List (List PutRequest)) (k : Nat) :
    ddbCallLoop table w bs k = (bs.map (Event.batchWriteCall table), Except.ok ()) := by
  induction bs generalizing k with
  | nil => simp [ddbCallLoop]
  | cons b rest ih =>
    rw [ddbCallLoop, hw k]
    simp [ih]

/-- A sample row keyed by an index, for concrete instantiations. -/
def sampleRec (i : Nat) : Record :=
  [("GCLID", Scalar.num (Int.ofNat i))]

/-- Fifty-two sample rows, the count of the spec scenario. -/
def sampleRows52 : List Record :=
  (List.range 52).map sampleRec

/-- A sample environment configuration. -/
def sampleConfig : Config :=
  { S3_BUCKET := "bucket", s3KeyPrefixVar := none, DYNAMO_TABLE_NAME := "clicks" }

/-- C1: for any row sequence of length N, writeToDynamoDB partitions it into
exactly ceil(N/25) = (N+24)/25 batches, every batch has between 1 and 25
items, every non-final batch has exactly 25, the items across all batches
are a permutation of the rows (no duplication or omission), and when every
call succeeds the run issues exactly one bulk-write call per batch. -/
theorem writeToDynamoDB_partitions_into_batches (cfg : Config) (rows : List Record) :
    (writeBatches rows).length = (rows.length + 24) / 25
    ∧ (∀ b ∈ writeBatches rows, 1 ≤ b.length ∧ b.length ≤ 25)
    ∧ (∀ b ∈ (writeBatches rows).dropLast, b.length = 25)
    ∧ List.Perm ((writeBatches rows).flatten.map PutRequest.Item) rows
    ∧ (writeToDynamoDB cfg (fun _ => Except.ok ()) rows).1
        = (writeBatches rows).map (Event.batchWriteCall cfg.DYNAMO_TABLE_NAME) := by
  refine ⟨?_, ?_, ?_, ?_, ?_⟩
  · rw [writeBatches_eq, chunksOf25_length, List.length_map]
  · intro b hb
    rw [writeBatches_eq] at hb
    exact chunksOf25_mem hb
  · intro b hb
    rw [writeBatches_eq] at hb
    exact chunksOf25_dropLast hb
  · rw [writeBatches_items rows]
  · rw [writeToDynamoDB, ddbCallLoop_all_ok _ _ (fun _ => rfl)]

/-- C1 witness: with 52 rows there are exactly (52+24)/25 = 3 batches of
sizes 25, 25 and 2, and the first batch is full. -/
theorem writeToDynamoDB_partitions_into_batches_witness :
    (writeBatches sampleRows52).length = (52 + 24) / 25
    ∧ (52 + 24) / 25 = 3
    ∧ (writeBatches sampleRows52).map List.length = [25, 25, 2]
    ∧ (writeBatches sampleRows52).headI.length = 25
    ∧ 1 ≤ (writeBatches sampleRows52).headI.length := by
  refine ⟨?_, by norm_num, by decide, ?_, ?_⟩
  · have h := (writeToDynamoDB_partitions_into_batches sampleConfig sampleRows52).1
    simpa using h
  · have h := (writeToDynamoDB_partitions_into_batches sampleConfig sampleRows52).2.2.1
      (writeBatches sampleRows52).headI (by decide)
    exact h
  · have h := ((writeToDynamoDB_partitions_into_batches sampleConfig sampleRows52).2.1
      (writeBatches sampleRows52).headI (by decide)).1
    exact h

/-- C8: every write-item carries its record verbatim: projecting the items
out of all batches, in order, returns exactly the input rows (so no key is
renamed, no value transformed, no attribute added or removed), and every
item found in any batch is one of the input rows unchanged. -/
theorem putRequest_items_verbatim (rows : List Record) :
    (writeBatches rows).flatten.map PutRequest.Item = rows
    ∧ ∀ b ∈ writeBatches rows, ∀ pr ∈ b, pr.Item ∈ rows := by
  refine ⟨writeBatches_items rows, ?_⟩
  intro b hb pr hpr
  have hmem : pr ∈ (writeBatches rows).flatten := List.mem_flatten.mpr ⟨b, hb, hpr⟩
  rw [writeBatches_flatten] at hmem
  rcases List.mem_map.mp hmem with ⟨r, hr, he⟩
  rw [← he]
  exact hr

/-- C8 witness: in a concrete two-row run, the single item of the first
batch is literally the first row. -/
theorem putRequest_items_verbatim_witness :
    ({ Item := sampleRec 0 } : PutRequest).Item ∈ [sampleRec 0, sampleRec 1] :=
  (putRequest_items_verbatim [sampleRec 0, sampleRec 1]).2
    [{ Item := sampleRec 0 }, { Item := sampleRec 1 }] (by decide)
    { Item := sampleRec 0 } (by decide)

/-- C9: chunking followed by concatenation is the identity on the input:
the concatenation of the emitted batches, in emission order, is exactly the
input row sequence wrapped as put requests, element for element. -/
theorem writeBatches_concat_identity (rows : List Record) :
    (writeBatches rows).flatten = rows.map fun r => { Item := r } :=
  writeBatches_flatten rows

/-- Keys of a JSON object, in order. -/
def jsonObjKeys : Json → List String
  | Json.obj fs => fs.map Prod.fst
  | _ => []

/-- Values of a JSON object, in order. -/
def jsonObjValues : Json → List Json
  | Json.obj fs => fs.map Prod.snd
  | _ => []

/-- C2: the archive body is the rendering of the JSON array whose elements
are, in order, the objects carrying exactly each source record's keys and
values: there are exactly N elements, element keys are the record's keys,
element values are the record's values embedded injectively (so equal JSON
values mean equal scalars), and zero rows give the literal empty array. -/
theorem dumpToS3_archives_rows_faithfully (rows : List Record) :
    jsonStringifyRows rows = renderJson (Json.arr (rows.map recordToJson))
    ∧ (rows.map recordToJson).length = rows.length
    ∧ (∀ r ∈ rows, jsonObjKeys (recordToJson r) = r.map Prod.fst)
    ∧ (∀ r ∈ rows, jsonObjValues (recordToJson r) = r.map fun kv => scalarToJson kv.2)
    ∧ (∀ v v' : Scalar, scalarToJson v = scalarToJson v' → v = v')
    ∧ jsonStringifyRows [] = "[]" := by
  refine ⟨rfl, by simp, ?_, ?_, ?_, by decide⟩
  · intro r hr
    simp [recordToJson, jsonObjKeys, List.map_map]
  · intro r hr
    simp [recordToJson, jsonObjValues, List.map_map]
  · intro v v' hvv
    cases v <;> cases v' <;> simp_all [scalarToJson]

/-- A sample two-column row. -/
def sampleRow : Record :=
  [("gclid", Scalar.str "abc"), ("clicks", Scalar.num 3)]

/-- C2 witness: the archived object for the sample row carries exactly its
two keys, and zero rows give the empty JSON array. -/
theorem dumpToS3_archives_rows_faithfully_witness :
    jsonObjKeys (recordToJson sampleRow) = ["gclid", "clicks"]
    ∧ jsonStringifyRows [] = "[]" := by
  constructor
  · have h := (dumpToS3_archives_rows_faithfully [sampleRow]).2.2.1 sampleRow (by decide)
    rw [h]
    decide
  · exact (dumpToS3_archives_rows_faithfully []).2.2.2.2.2

/-- The pre-settlement trace of the source reader never contains an S3 put. -/
theorem fetchAllRows_no_putObject (w : World) :
    (fetchAllRows w).1.filter Event.isPutObject = [] := by
  rcases w with ⟨ce, qr, s, d⟩
  cases ce with
  | none => cases qr <;> simp [fetchAllRows, Event.isPutObject]
  | some e => simp [fetchAllRows, Event.isPutObject]

/-- The call loop of the index writer never emits an S3 put. -/
theorem ddbCallLoop_no_putObject (table : String) (w : Nat → Except String Unit)
    (bs : List (List PutRequest)) (k : Nat) :
    (ddbCallLoop table w bs k).1.filter Event.isPutObject = [] := by
  induction bs generalizing k with
  | nil => simp [ddbCallLoop]
  | cons b rest ih =>
    cases hwk : w k with
    | error e => simp [ddbCallLoop, hwk, Event.isPutObject]
    | ok u => simp [ddbCallLoop, hwk, Event.isPutObject, ih]

/-- Shape of the full run trace: the fetch effects, then on fetch success
the archive put, then on archive success the batch calls, then the final
log line; an error at any stage is followed only by the error log. -/
theorem mainRun_trace (cfg : Config) (w : World) :
    (mainRun cfg w).1
      = (fetchAllRows w).1
        ++ match (fetchAllRows w).2 with
           | Except.error _ => [Event.logError]
           | Except.ok rows =>
             Event.putObject cfg.S3_BUCKET (archiveKey cfg) (jsonStringifyRows rows)
               :: match w.s3Result with
                  | Except.error _ => [Event.logError]
                  | Except.ok _ =>
                    (writeToDynamoDB cfg w.ddbResult rows).1
                      ++ match (writeToDynamoDB cfg w.ddbResult rows).2 with
                         | Except.error _ => [Event.logError]
                         | Except.ok _ =>
                           [Event.logSuccess ("Wrote " ++ toString rows.length
                             ++ " records to S3 and DynamoDB")] := by
  simp only [mainRun, dumpToS3]
  cases hf : (fetchAllRows w).2 with
  | error e => simp
  | ok rows =>
    cases hs : w.s3Result with
    | error e => simp
    | ok u =>
      cases hd : (writeToDynamoDB cfg w.ddbResult rows).2 with
      | error e => simp [hd]
      | ok u => simp [hd]

/-- The putObject events of the full run: none when the fetch fails, and
exactly the one archive write otherwise, whatever the later outcomes. -/
theorem mainRun_putObject_events (cfg : Config) (w : World) :
    (mainRun cfg w).1.filter Event.isPutObject
      = match (fetchAllRows w).2 with
        | Except.error _ => []
        | Except.ok rows =>
            [Event.putObject cfg.S3_BUCKET (archiveKey cfg) (jsonStringifyRows rows)] := by
  rw [mainRun_trace, List.filter_append, fetchAllRows_no_putObject]
  cases hf : (fetchAllRows w).2 with
  | error e => simp [Event.isPutObject]
  | ok rows =>
    cases hs : w.s3Result with
    | error e => simp [Event.isPutObject]
    | ok u =>
      cases hd : (writeToDynamoDB cfg w.ddbResult rows).2 with
      | error e =>
        simp only [writeToDynamoDB] at hd
        simp [Event.isPutObject, List.filter_append, writeToDynamoDB,
          ddbCallLoop_no_putObject, hd]
      | ok u =>
        simp only [writeToDynamoDB] at hd
        simp [Event.isPutObject, List.filter_append, writeToDynamoDB,
          ddbCallLoop_no_putObject, hd]

/-- C7: the archive write is deterministic: two runs whose source reads
settle identically (same records in the same order) put byte-identical
bodies to the same bucket and key, whatever the other outcomes of either
run; rerunning with an unchanged source overwrites the archive with
identical content. -/
theorem archive_write_deterministic (cfg : Config) (w1 w2 : World)
    (h : (fetchAllRows w1).2 = (fetchAllRows w2).2) :
    (mainRun cfg w1).1.filter Event.isPutObject
      = (mainRun cfg w2).1.filter Event.isPutObject := by
  rw [mainRun_putObject_events, mainRun_putObject_events, h]

/-- A world in which every interaction succeeds and the source returns one
sample row. -/
def worldAllOk : World :=
  { connectErr := none, queryResult := Except.ok [sampleRec 0],
    s3Result := Except.ok (), ddbResult := fun _ => Except.ok () }

/-- Like `worldAllOk`, but the S3 put fails. -/
def worldS3Fail : World :=
  { connectErr := none, queryResult := Except.ok [sampleRec 0],
    s3Result := Except.error "s3 unavailable", ddbResult := fun _ => Except.ok () }

/-- C7 witness: a fully successful run and a run whose archive write fails,
over the same source data, produce the same putObject event. -/
theorem archive_write_deterministic_witness :
    (mainRun sampleConfig worldAllOk).1.filter Event.isPutObject
      = (mainRun sampleConfig worldS3Fail).1.filter Event.isPutObject :=
  archive_write_deterministic sampleConfig worldAllOk worldS3Fail rfl

/-- C10: the default key prefix applies only when the corresponding
environment variable is undefined; any supplied value, the empty string
included, is used verbatim, so an explicitly empty prefix yields the bare
filename as the key. -/
theorem archiveKey_default_only_when_absent (cfg : Config) :
    (∀ p, cfg.s3KeyPrefixVar = some p → archiveKey cfg = p ++ "initial_load.json")
    ∧ (cfg.s3KeyPrefixVar = none → archiveKey cfg = "click_performance/initial_load.json")
    ∧ (cfg.s3KeyPrefixVar = some "" → archiveKey cfg = "initial_load.json") := by
  refine ⟨?_, ?_, ?_⟩
  · intro p hp
    simp [archiveKey, s3KeyPrefixValue, hp]
  · intro hp
    have h : archiveKey cfg = "click_performance/" ++ "initial_load.json" := by
      simp [archiveKey, s3KeyPrefixValue, hp]
    rw [h]
    decide
  · intro hp
    have h : archiveKey cfg = "" ++ "initial_load.json" := by
      simp [archiveKey, s3KeyPrefixValue, hp]
    rw [h]
    decide

/-- C10 witness: with the prefix variable set to the empty string the key is
the bare filename, and with it undefined the default prefix appears. -/
theorem archiveKey_default_only_when_absent_witness :
    archiveKey { S3_BUCKET := "b", s3KeyPrefixVar := some "", DYNAMO_TABLE_NAME := "t" }
        = "initial_load.json"
    ∧ archiveKey { S3_BUCKET := "b", s3KeyPrefixVar := none, DYNAMO_TABLE_NAME := "t" }
        = "click_performance/initial_load.json" :=
  ⟨(archiveKey_default_only_when_absent _).2.2 rfl,
   (archiveKey_default_only_when_absent _).2.1 rfl⟩

/-- The pre-settlement trace of the source reader never contains a
batchWrite call. -/
theorem fetchAllRows_no_batchWrite (w : World) :
    (fetchAllRows w).1.filter Event.isBatchWriteCall = [] := by
  rcases w with ⟨ce, qr, s, d⟩
  cases ce with
  | none => cases qr <;> simp [fetchAllRows, Event.isBatchWriteCall]
  | some e => simp [fetchAllRows, Event.isBatchWriteCall]

/-- Batch-call events pass the batch-call filter unchanged. -/
theorem filter_batchWrite_map (table : String) (bs : List (List PutRequest)) :
    (bs.map (Event.batchWriteCall table)).filter Event.isBatchWriteCall
      = bs.map (Event.batchWriteCall table) := by
  induction bs with
  | nil => rfl
  | cons b rest ih => simp [Event.isBatchWriteCall, ih]

/-- C3: if the source read rejects, the run performs no S3 put and no
batchWrite call, emits no success log line, and exits with a nonzero
status. -/
theorem main_fetch_failure_aborts (cfg : Config) (w : World) (e : String)
    (h : (fetchAllRows w).2 = Except.error e) :
    ((mainRun cfg w).1.all fun ev =>
        !(ev.isPutObject || ev.isBatchWriteCall || ev.isLogSuccess))
    ∧ (mainRun cfg w).2 ≠ 0 := by
  constructor
  · have ht : (mainRun cfg w).1 = (fetchAllRows w).1 ++ [Event.logError] := by
      rw [mainRun_trace, h]
    rw [ht]
    rcases w with ⟨ce, qr, s, d⟩
    cases ce with
    | none =>
      cases qr <;>
        simp [fetchAllRows, Event.isPutObject, Event.isBatchWriteCall, Event.isLogSuccess]
    | some e' =>
      simp [fetchAllRows, Event.isPutObject, Event.isBatchWriteCall, Event.isLogSuccess]
  · simp only [mainRun]
    rw [h]
    simp

/-- A world whose warehouse connection fails. -/
def worldConnectFail : World :=
  { connectErr := some "connection refused", queryResult := Except.ok [],
    s3Result := Except.ok (), ddbResult := fun _ => Except.ok () }

/-- C3 witness: a run with a failing connection performs neither sink write,
logs no success, and exits nonzero. -/
theorem main_fetch_failure_aborts_witness :
    ((mainRun sampleConfig worldConnectFail).1.all fun ev =>
        !(ev.isPutObject || ev.isBatchWriteCall || ev.isLogSuccess))
    ∧ (mainRun sampleConfig worldConnectFail).2 ≠ 0 :=
  main_fetch_failure_aborts sampleConfig worldConnectFail "connection refused" rfl

/-- C4: if the archive write fails, the index writer is never invoked — no
batchWrite call appears in the trace — no success line is logged, and the
process exits with a nonzero status: the first error aborts the remaining
pipeline steps. -/
theorem main_s3_failure_aborts (cfg : Config) (w : World) (rows : List Record) (e : String)
    (hf : (fetchAllRows w).2 = Except.ok rows) (hs : w.s3Result = Except.error e) :
    ((mainRun cfg w).1.all fun ev => !(ev.isBatchWriteCall || ev.isLogSuccess))
    ∧ (mainRun cfg w).2 ≠ 0 := by
  constructor
  · have ht : (mainRun cfg w).1
        = (fetchAllRows w).1
          ++ Event.putObject cfg.S3_BUCKET (archiveKey cfg) (jsonStringifyRows rows)
            :: [Event.logError] := by
      rw [mainRun_trace, hf, hs]
    rw [ht]
    rcases w with ⟨ce, qr, s, d⟩
    cases ce with
    | none =>
      cases qr <;> simp [fetchAllRows, Event.isBatchWriteCall, Event.isLogSuccess]
    | some e' =>
      simp [fetchAllRows, Event.isBatchWriteCall, Event.isLogSuccess]
  · simp only [mainRun, dumpToS3]
    rw [hf]
    simp only []
    rw [hs]
    simp

/-- C4 witness: a run whose S3 put fails issues no batchWrite, logs no
success, and exits nonzero. -/
theorem main_s3_failure_aborts_witness :
    ((mainRun sampleConfig worldS3Fail).1.all fun ev =>
        !(ev.isBatchWriteCall || ev.isLogSuccess))
    ∧ (mainRun sampleConfig worldS3Fail).2 ≠ 0 :=
  main_s3_failure_aborts sampleConfig worldS3Fail [sampleRec 0] "s3 unavailable" rfl rfl

/-- If the first k calls succeed and call k fails, the loop issues exactly
the first k+1 batches, each once and in order, and throws the error. -/
theorem ddbCallLoop_fail (table : String) (w : Nat → Except String Unit)
    (bs : List (List PutRequest)) (k0 k : Nat) (e : String)
    (hk : k < bs.length)
    (hok : ∀ j, j < k → w (k0 + j) = Except.ok ())
    (he : w (k0 + k) = Except.error e) :
    ddbCallLoop table w bs k0
      = ((bs.take (k + 1)).map (Event.batchWriteCall table), Except.error e) := by
  induction bs generalizing k0 k with
  | nil => simp at hk
  | cons b rest ih =>
    cases k with
    | zero =>
      have he0 : w k0 = Except.error e := by simpa using he
      simp [ddbCallLoop, he0]
    | succ k' =>
      have h0 : w k0 = Except.ok () := by simpa using hok 0 (Nat.succ_pos k')
      rw [ddbCallLoop, h0]
      have ih' := ih (k0 + 1) k' (by simpa using hk)
        (fun j hj => by
          have h1 : k0 + 1 + j = k0 + (j + 1) := by omega
          rw [h1]
          exact hok (j + 1) (by omega))
        (by
          have h1 : k0 + 1 + k' = k0 + (k' + 1) := by omega
          rw [h1]
          exact he)
      simp [ih', List.take_succ_cons]

/-- C5: if the k-th bulk-write call fails after the earlier calls
succeeded, the run aborts with exit code 1, and the batchWrite calls issued
are exactly one per batch for the first k+1 batches in order: the batches
already written stay written with no rollback and no compensating call, the
failing batch is issued exactly once (no retry), and no later batch is ever
issued. Call indices are zero-based. -/
theorem main_ddb_failure_aborts (cfg : Config) (w : World) (rows : List Record)
    (k : Nat) (e : String)
    (hf : (fetchAllRows w).2 = Except.ok rows)
    (hs : w.s3Result = Except.ok ())
    (hk : k < (writeBatches rows).length)
    (hok : ∀ j, j < k → w.ddbResult j = Except.ok ())
    (he : w.ddbResult k = Except.error e) :
    (mainRun cfg w).1.filter Event.isBatchWriteCall
      = ((writeBatches rows).take (k + 1)).map
          (Event.batchWriteCall cfg.DYNAMO_TABLE_NAME)
    ∧ (mainRun cfg w).2 = 1 := by
  have hd := ddbCallLoop_fail cfg.DYNAMO_TABLE_NAME w.ddbResult (writeBatches rows) 0 k e hk
    (fun j hj => by simpa using hok j hj) (by simpa using he)
  have hw : writeToDynamoDB cfg w.ddbResult rows
      = (((writeBatches rows).take (k + 1)).map
          (Event.batchWriteCall cfg.DYNAMO_TABLE_NAME), Except.error e) := by
    rw [writeToDynamoDB, hd]
  constructor
  · simp only [mainRun_trace, hf, hs, hw]
    simp [List.filter_append, fetchAllRows_no_batchWrite, Event.isBatchWriteCall,
      filter_batchWrite_map]
    intro a ha
    rcases List.mem_map.mp (List.mem_of_mem_take ha) with ⟨b, hb, hab⟩
    subst hab
    rfl
  · simp [mainRun, dumpToS3, hf, hs, hw]

/-- A world in which the source returns 52 rows and the second DynamoDB
call fails. -/
def worldDdbFail : World :=
  { connectErr := none, queryResult := Except.ok sampleRows52,
    s3Result := Except.ok (),
    ddbResult := fun k => if k = 1 then Except.error "throughput exceeded" else Except.ok () }

/-- C5 witness: with 52 rows and the second call failing, exactly the first
two batches are issued and the run exits with code 1. -/
theorem main_ddb_failure_aborts_witness :
    (mainRun sampleConfig worldDdbFail).1.filter Event.isBatchWriteCall
      = ((writeBatches sampleRows52).take 2).map (Event.batchWriteCall "clicks")
    ∧ (mainRun sampleConfig worldDdbFail).2 = 1 :=
  main_ddb_failure_aborts sampleConfig worldDdbFail sampleRows52 1 "throughput exceeded"
    rfl rfl (by decide)
    (fun j hj => by
      have hj0 : j = 0 := by omega
      subst hj0
      rfl)
    rfl

/-- C6 counterexample: on the connection-error path, `fetchAllRows` rejects
the promise without `connection.destroy` ever being called, so the
connection is not released before the failure is propagated. -/
theorem fetchAllRows_connect_error_no_destroy :
    (fetchAllRows worldConnectFail).2 = Except.error "connection refused"
    ∧ Event.destroyConnection ∉ (fetchAllRows worldConnectFail).1 :=
  ⟨rfl, by decide⟩

/-- C6 (amended): when the connection callback receives no error, the
connection is destroyed before the promise settles, on both the query-error
and the query-success path; on the connection-error path the promise is
rejected without the connection being destroyed. -/
theorem fetchAllRows_destroy_before_settle (w : World) :
    (w.connectErr = none → Event.destroyConnection ∈ (fetchAllRows w).1)
    ∧ (∀ e, w.connectErr = some e → Event.destroyConnection ∉ (fetchAllRows w).1) := by
  rcases w with ⟨ce, qr, s, d⟩
  cases ce with
  | none =>
    refine ⟨fun _ => ?_, fun e he => ?_⟩
    · cases qr <;> simp [fetchAllRows]
    · simp at he
  | some e0 =>
    refine ⟨fun h => ?_, fun e he => ?_⟩
    · simp at h
    · simp [fetchAllRows]

/-- C6 amended-claim witness: in the all-success world the destroy effect
occurs before the promise settles. -/
theorem fetchAllRows_destroy_before_settle_witness :
    Event.destroyConnection ∈ (fetchAllRows worldAllOk).1 :=
  (fetchAllRows_destroy_before_settle worldAllOk).1 rfl

end GoogleAdsClickParameters
